import Mathlib

/-!
Verification of the LD2410 serial driver (ld2410.py).

The byte stream is modelled as a `List Nat` of byte values (0..255); the
serial port's blocking `read(n)` on a finite stream returns `take n` (a
short result models the per-read timeout elapsing).  Python exceptions are
modelled with explicit result types; the driver's unbounded preamble-scan
loop, which spins forever on a silent line, is modelled by a distinguished
`blocked` outcome when the stream is exhausted mid-scan.  Wall-clock
timeouts, `time.sleep` and the logging calls have no observable effect on
the decoded data and are not modelled.
-/

namespace LD2410

/-- Wire constant from `LD2410.COMMAND_PREAMBLE`. -/
def COMMAND_PREAMBLE : List Nat := [0xFD, 0xFC, 0xFB, 0xFA]

/-- Wire constant from `LD2410.COMMAND_POSTAMBLE`. -/
def COMMAND_POSTAMBLE : List Nat := [0x04, 0x03, 0x02, 0x01]

/-- Wire constant from `LD2410.REPORTING_PREAMBLE`. -/
def REPORTING_PREAMBLE : List Nat := [0xF4, 0xF3, 0xF2, 0xF1]

/-- Wire constant from `LD2410.REPORTING_POSTAMBLE`. -/
def REPORTING_POSTAMBLE : List Nat := [0xF8, 0xF7, 0xF6, 0xF5]

/-- Little-endian `n.to_bytes(width, byteorder="little")`.  Python raises
`OverflowError` when `n` does not fit; theorems that rely on the length
field therefore carry a `n < 2^(8*width)` hypothesis. -/
def int_to_bytes_le : Nat → Nat → List Nat
  | 0, _ => []
  | w + 1, n => n % 256 :: int_to_bytes_le w (n / 256)

/-- `byte_pair_to_int` from the source: `int.from_bytes(inp, "little")`
(the source applies it to arbitrary-length slices, so it is modelled for
any list of bytes). -/
def byte_pair_to_int : List Nat → Nat
  | [] => 0
  | b :: rest => b + 256 * byte_pair_to_int rest

/-- One step of `list_ints_to_bytes`: `b.to_bytes(1, "little", signed=False)`,
which raises `OverflowError` unless `0 ≤ b < 256`. -/
def int_to_byte (b : Int) : Option Nat :=
  if 0 ≤ b ∧ b < 256 then some b.toNat else none

/-- `list_ints_to_bytes` from the source: converts a Python `list[int]` to
`bytes`, failing on the first out-of-range element. -/
def list_ints_to_bytes : List Int → Option (List Nat)
  | [] => some []
  | b :: rest =>
    match int_to_byte b, list_ints_to_bytes rest with
    | some x, some xs => some (x :: xs)
    | _, _ => none

/-- `LD2410._tx_sequence` on a `bytes` payload: the concatenation of bytes
written to the serial port (preamble, 2-byte little-endian length, payload,
postamble). -/
def tx_sequence (payload : List Nat) : List Nat :=
  COMMAND_PREAMBLE ++ int_to_bytes_le 2 payload.length ++ payload ++ COMMAND_POSTAMBLE

/-- `LD2410._tx_sequence` on a `list[int]` payload: the list is first
converted with `list_ints_to_bytes`. -/
def tx_sequence_ints (seq : List Int) : Option (List Nat) :=
  (list_ints_to_bytes seq).map tx_sequence

/-- The tuple `(preamble, payload, postamble)` returned by
`LD2410._read_any_message`. -/
structure Msg where
  preamble : List Nat
  payload : List Nat
  postamble : List Nat
deriving DecidableEq, Repr

/-- Which handshake step raised its acknowledgement check. -/
inductive HandshakeStep
  | enterConfig
  | reset
  | engineering
  | leaveConfig
deriving DecidableEq, Repr

/-- The distinct `LD2410Exception` raise sites, as structured variants
(the source carries human-readable message strings at each site). -/
inductive DriverError
  | shortLengthRead
  | shortPayloadRead
  | shortPostambleRead
  | rxTimeout (report_expected : Bool) (retries : Nat)
  | ackMismatch (step : HandshakeStep)
deriving DecidableEq, Repr

/-- Result of running a piece of the driver against a finite byte stream:
a value, a raised `LD2410Exception`, or blocking forever (the preamble
scan loop looping on timeouts past the end of the stream). -/
inductive Outcome (α : Type)
  | ok (val : α)
  | err (e : DriverError)
  | blocked
deriving DecidableEq, Repr

/-- The preamble-search loop of `LD2410._read_any_message`.  State: the
bytes of the candidate preamble accepted so far (`acc`, the source's
`preamble`), how many (`n`, the source's `preamble_target_no`) and the
preamble being matched (`target`, the source's `target_preamble`).  On a
mismatch at `n > 0` all progress is discarded and the mismatching byte is
not re-examined.  Returns the recognised preamble and the remaining
stream, or `none` if the stream ends first. -/
def scanPreamble : List Nat → Nat → List Nat → List Nat → Option (List Nat × List Nat)
  | [], _, _, _ => none
  | c :: rest, 0, acc, target =>
    if c = COMMAND_PREAMBLE.getD 0 0 ∨ c = REPORTING_PREAMBLE.getD 0 0 then
      scanPreamble rest 1 [c]
        (if c = REPORTING_PREAMBLE.getD 0 0 then REPORTING_PREAMBLE else COMMAND_PREAMBLE)
    else
      scanPreamble rest 0 acc target
  | c :: rest, n + 1, acc, target =>
    if c = target.getD (n + 1) 0 then
      if n + 2 = 4 then some (acc ++ [c], rest)
      else scanPreamble rest (n + 2) (acc ++ [c]) target
    else
      scanPreamble rest 0 [] []

/-- The fixed-size reads of `LD2410._read_any_message` after the preamble
is recognised: 2 length bytes, `length` payload bytes, 4 postamble bytes;
each short read raises. -/
def read_frame_body (preamble rest : List Nat) : Outcome (Msg × List Nat) :=
  let length_raw := rest.take 2
  if length_raw.length ≠ 2 then .err .shortLengthRead else
  let length := byte_pair_to_int length_raw
  let after_len := rest.drop 2
  let payload := after_len.take length
  if payload.length ≠ length then .err .shortPayloadRead else
  let after_payload := after_len.drop length
  let postamble := after_payload.take 4
  if postamble.length ≠ 4 then .err .shortPostambleRead else
  .ok (⟨preamble, payload, postamble⟩, after_payload.drop 4)

/-- `LD2410._read_any_message` on a finite stream; also returns the
unconsumed remainder of the stream. -/
def read_any_message (stream : List Nat) : Outcome (Msg × List Nat) :=
  match scanPreamble stream 0 [] [] with
  | none => .blocked
  | some (pre, rest) => read_frame_body pre rest

/-- The preamble `LD2410._rx_sequence` expects for a given
`report_expected`. -/
def expected_preamble (report_expected : Bool) : List Nat :=
  if report_expected then REPORTING_PREAMBLE else COMMAND_PREAMBLE

/-- The postamble `LD2410._rx_sequence` expects for a given
`report_expected`. -/
def expected_postamble (report_expected : Bool) : List Nat :=
  if report_expected then REPORTING_POSTAMBLE else COMMAND_POSTAMBLE

/-- The `for try_no in range(retries)` loop of `LD2410._rx_sequence`:
`fuel` counts the remaining iterations, `retries` is the original count
(quoted in the timeout error). -/
def rx_loop (report_expected : Bool) (retries : Nat) : Nat → List Nat → Outcome (List Nat × List Nat)
  | 0, _ => .err (.rxTimeout report_expected retries)
  | fuel + 1, stream =>
    match read_any_message stream with
    | .ok (msg, rest) =>
      if msg.preamble = expected_preamble report_expected ∧
         msg.postamble = expected_postamble report_expected then
        .ok (msg.payload, rest)
      else
        rx_loop report_expected retries fuel rest
    | .err e => .err e
    | .blocked => .blocked

/-- `LD2410._rx_sequence`: returns the payload of the first frame whose
preamble and postamble match the expected kind, together with the
remaining stream. -/
def rx_sequence (report_expected : Bool) (retries : Nat) (stream : List Nat) :
    Outcome (List Nat × List Nat) :=
  rx_loop report_expected retries retries stream

/-- Reads one wrong-kind frame from the stream: `some rest` when the next
frame decodes but its preamble/postamble do not match the expected kind.
Used to state which frames `rx_sequence` discards. -/
def skipWrong (report_expected : Bool) (s : List Nat) : Option (List Nat) :=
  match read_any_message s with
  | .ok (msg, rest) =>
    if msg.preamble = expected_preamble report_expected ∧
       msg.postamble = expected_postamble report_expected then none
    else some rest
  | _ => none

/-- Iterates `skipWrong` `j` times: the stream position after discarding
`j` consecutive wrong-kind frames. -/
def skipWrongN (report_expected : Bool) : Nat → List Nat → Option (List Nat)
  | 0, s => some s
  | j + 1, s => (skipWrong report_expected s).bind (skipWrongN report_expected j)

/-- The `Reading` class: one decoded measurement (the wall-clock
`timestamp` field is not modelled). -/
structure Reading where
  target_state : Nat
  moving_target_range : Nat
  moving_target_energy : Nat
  static_target_range : Nat
  static_target_energy : Nat
  detection_distance : Nat
  max_moving_distance : Nat
  max_static_distance : Nat
  moving : List Nat
  static : List Nat
deriving DecidableEq, Repr

/-- The list comprehension `[seq[base+i] for i in range(n)]` from
`Reading.new_from_bytes`; `none` models the `IndexError` raised by the
first out-of-range index. -/
def gatherGates (seq : List Nat) : Nat → Nat → Option (List Nat)
  | _, 0 => some []
  | base, n + 1 =>
    match seq[base]?, gatherGates seq (base + 1) n with
    | some x, some xs => some (x :: xs)
    | _, _ => none

/-- A Python slice `l[a:b]` (never raises; clips to the list). -/
def pySlice (l : List Nat) (a b : Nat) : List Nat := (l.drop a).take (b - a)

/-- `Reading.new_from_bytes`: decodes a measurement payload.  Direct
indexing (`seq[i]`) raises on an out-of-range index, modelled as `none`;
slices clip silently.  Note the source performs no length check of its
own. -/
def new_from_bytes (seq : List Nat) : Option Reading :=
  match gatherGates seq 11 12 with
  | none => none
  | some movs =>
    match gatherGates seq 23 12 with
    | none => none
    | some stats =>
      match seq[0]?, seq[3]?, seq[6]?, seq[9]?, seq[10]? with
      | some t0, some me, some se, some mmd, some msd =>
        some { target_state := t0
             , moving_target_range := byte_pair_to_int (pySlice seq 1 3)
             , moving_target_energy := me
             , static_target_range := byte_pair_to_int (pySlice seq 4 6)
             , static_target_energy := se
             , detection_distance := byte_pair_to_int (pySlice seq 7 9)
             , max_moving_distance := mmd
             , max_static_distance := msd
             , moving := movs
             , static := stats }
      | _, _, _, _, _ => none

/-- The `Thresholds` class. -/
structure Thresholds where
  moving : Option (List (Option Nat))
  static : Option (List (Option Nat))

/-- `Reading.compare`: the source body is `return False  # Placeholder`. -/
def Reading.compare (_r : Reading) (_thresholds : Thresholds) : Bool := false

/-- `LD2410._test_presence`: delegates to `Reading.compare`. -/
def test_presence (thresholds : Thresholds) (reading : Reading) : Bool :=
  reading.compare thresholds

/-- The serial port as seen by the handshake: the bytes still to be
delivered by the sensor and the bytes the driver has written so far. -/
structure SerialState where
  input : List Nat
  output : List Nat
deriving DecidableEq, Repr

/-- Result of one handshake step: success, a raised exception, or
blocking forever; the `SerialState` records the bytes written up to that
point. -/
inductive StepResult
  | ok (st : SerialState)
  | fail (e : DriverError) (st : SerialState)
  | hang (st : SerialState)
deriving DecidableEq, Repr

/-- Sequencing of handshake steps: a raised exception or a hang aborts
everything after it. -/
def StepResult.andThen : StepResult → (SerialState → StepResult) → StepResult
  | .ok st, f => f st
  | .fail e st, _ => .fail e st
  | .hang st, _ => .hang st

/-- `LD2410._enter_configuration_mode`: sends `FF 00 01 00`, requires the
exact ack `FF 01 00 00 01 00 40 00` (retries=10). -/
def enter_configuration_mode (st : SerialState) : StepResult :=
  let st1 : SerialState := { st with output := st.output ++ tx_sequence [0xFF, 0x00, 0x01, 0x00] }
  match rx_sequence false 10 st1.input with
  | .ok (resp, rest) =>
    if resp = [0xFF, 0x01, 0x00, 0x00, 0x01, 0x00, 0x40, 0x00] then
      .ok { st1 with input := rest }
    else
      .fail (.ackMismatch .enterConfig) { st1 with input := rest }
  | .err e => .fail e st1
  | .blocked => .hang st1

/-- `LD2410._send_reset`: sends `A3 00`, requires ack `A3 01 00 00`
(retries=3). -/
def send_reset (st : SerialState) : StepResult :=
  let st1 : SerialState := { st with output := st.output ++ tx_sequence [0xA3, 0x00] }
  match rx_sequence false 3 st1.input with
  | .ok (resp, rest) =>
    if resp = [0xA3, 0x01, 0x00, 0x00] then
      .ok { st1 with input := rest }
    else
      .fail (.ackMismatch .reset) { st1 with input := rest }
  | .err e => .fail e st1
  | .blocked => .hang st1

/-- `LD2410._request_firmware_version`: sends `A0 00`; the response is
only logged, never validated (retries=3). -/
def request_firmware_version (st : SerialState) : StepResult :=
  let st1 : SerialState := { st with output := st.output ++ tx_sequence [0xA0, 0x00] }
  match rx_sequence false 3 st1.input with
  | .ok (_resp, rest) => .ok { st1 with input := rest }
  | .err e => .fail e st1
  | .blocked => .hang st1

/-- `LD2410._start_engineering_mode`: sends `62 00`, requires ack
`62 01 00 00` (retries=10). -/
def start_engineering_mode (st : SerialState) : StepResult :=
  let st1 : SerialState := { st with output := st.output ++ tx_sequence [0x62, 0x00] }
  match rx_sequence false 10 st1.input with
  | .ok (resp, rest) =>
    if resp = [0x62, 0x01, 0x00, 0x00] then
      .ok { st1 with input := rest }
    else
      .fail (.ackMismatch .engineering) { st1 with input := rest }
  | .err e => .fail e st1
  | .blocked => .hang st1

/-- `LD2410._leave_configuration_mode`: sends `FE 00`, requires ack
`FE 01 00 00` (retries=5). -/
def leave_configuration_mode (st : SerialState) : StepResult :=
  let st1 : SerialState := { st with output := st.output ++ tx_sequence [0xFE, 0x00] }
  match rx_sequence false 5 st1.input with
  | .ok (resp, rest) =>
    if resp = [0xFE, 0x01, 0x00, 0x00] then
      .ok { st1 with input := rest }
    else
      .fail (.ackMismatch .leaveConfig) { st1 with input := rest }
  | .err e => .fail e st1
  | .blocked => .hang st1

/-- `LD2410._flush_serial`: discards buffered input.  The model's `input`
list is the full byte sequence the sensor will ever deliver, with no
buffered/not-yet-sent distinction, so the flush is an identity here. -/
def flush_serial (st : SerialState) : SerialState := st

/-- The handshake portion of `LD2410.run`, in source order:
enter config, reset, (sleep, flush), enter config again, firmware query,
engineering mode, leave config.  The reporting loop runs only if this
returns `ok`. -/
def run_handshake (st : SerialState) : StepResult :=
  (enter_configuration_mode st).andThen fun st =>
  (send_reset st).andThen fun st =>
  (enter_configuration_mode (flush_serial st)).andThen fun st =>
  (request_firmware_version st).andThen fun st =>
  (start_engineering_mode st).andThen fun st =>
  leave_configuration_mode st

/-- The reading history: `deque(maxlen=maxlen)` from `LD2410.__init__`. -/
structure Deque (α : Type) where
  maxlen : Nat
  items : List α
deriving Repr

/-- A fresh empty buffer of the given capacity. -/
def Deque.empty (α : Type) (maxlen : Nat) : Deque α := ⟨maxlen, []⟩

/-- `deque.append` with a `maxlen`: append on the right, then discard
from the left anything beyond capacity. -/
def Deque.push {α : Type} (d : Deque α) (x : α) : Deque α :=
  let items := d.items ++ [x]
  ⟨d.maxlen, items.drop (items.length - d.maxlen)⟩

/-- Repeated `buffer.append(read)` as performed by the reporting loop of
`LD2410.run`. -/
def Deque.pushAll {α : Type} (d : Deque α) (rs : List α) : Deque α :=
  rs.foldl Deque.push d

/-- `LD2410.get_latest`: `buffer[-1]`; the source busy-waits while the
buffer is empty, modelled as `none`. -/
def Deque.get_latest {α : Type} (d : Deque α) : Option α :=
  d.items.getLast?

/-- The example payload of spec section 8 item 5:
`00 32 00 4B 1E 00 64 00 C8 00 0A` followed by 24 zero bytes. -/
def sample_payload : List Nat :=
  [0x00, 0x32, 0x00, 0x4B, 0x1E, 0x00, 0x64, 0x00, 0xC8, 0x00, 0x0A] ++ List.replicate 24 0

/-- A report-kind frame with payload `01` followed by a command-kind frame
with payload `02`, used to exercise the wrong-kind-frame discarding of
`rx_sequence`. -/
def report_then_command : List Nat :=
  [0xF4, 0xF3, 0xF2, 0xF1, 0x01, 0x00, 0x01, 0xF8, 0xF7, 0xF6, 0xF5] ++ tx_sequence [0x02]

end LD2410

namespace LD2410

theorem take_len_append {α : Type} (l₁ l₂ : List α) : (l₁ ++ l₂).take l₁.length = l₁ := by
  induction l₁ with
  | nil => rfl
  | cons a t ih => simp [ih]

theorem drop_len_append {α : Type} (l₁ l₂ : List α) : (l₁ ++ l₂).drop l₁.length = l₂ := by
  induction l₁ with
  | nil => rfl
  | cons a t ih => simp [ih]

theorem scan_command (rest : List Nat) :
    scanPreamble (0xFD :: 0xFC :: 0xFB :: 0xFA :: rest) 0 [] [] =
      some ([0xFD, 0xFC, 0xFB, 0xFA], rest) := rfl

theorem read_frame_body_exact (pre payload post : List Nat) (a b : Nat)
    (hab : byte_pair_to_int [a, b] = payload.length) (hpost : post.length = 4) :
    read_frame_body pre (a :: b :: (payload ++ post)) =
      .ok (⟨pre, payload, post⟩, post.drop 4) := by
  unfold read_frame_body
  simp only [show (a :: b :: (payload ++ post)).take 2 = [a, b] from rfl,
             show (a :: b :: (payload ++ post)).drop 2 = payload ++ post from rfl, hab,
             take_len_append, drop_len_append]
  rw [← hpost, List.take_length]
  simp

/-- Claim C1: encoding any command body whose length fits in 16 bits with
`_tx_sequence` and scanning the resulting bytes with `_read_any_message`
returns exactly that body as the frame payload (with the command preamble
and postamble), consuming the whole stream. -/
theorem tx_rx_roundtrip (body : List Nat) (hlen : body.length < 65536) :
    read_any_message (tx_sequence body) =
      .ok (⟨COMMAND_PREAMBLE, body, COMMAND_POSTAMBLE⟩, []) := by
  have hshape : tx_sequence body =
      0xFD :: 0xFC :: 0xFB :: 0xFA ::
        ((body.length % 256) :: (body.length / 256 % 256) :: (body ++ COMMAND_POSTAMBLE)) := by
    simp [tx_sequence, COMMAND_PREAMBLE, int_to_bytes_le]
  have hab : byte_pair_to_int [body.length % 256, body.length / 256 % 256] = body.length := by
    simp only [byte_pair_to_int]
    omega
  rw [hshape]
  unfold read_any_message
  rw [scan_command]
  exact read_frame_body_exact _ body COMMAND_POSTAMBLE _ _ hab rfl

/-- Witness for C1 at the one-byte body `AB`. -/
theorem tx_rx_roundtrip_witness :
    read_any_message (tx_sequence [0xAB]) =
      .ok (⟨COMMAND_PREAMBLE, [0xAB], COMMAND_POSTAMBLE⟩, []) :=
  tx_rx_roundtrip [0xAB] (by decide)

/-- Claim C2, counterexample: decoding the sample payload of spec section
8 item 5 does not give `detection_distance = 200` (bytes 7..9 are
`00 C8`, little-endian 51200) nor `max_moving_distance = 10` (byte 9 is
`00`). -/
theorem decode_sample_counterexample :
    (new_from_bytes sample_payload).map Reading.detection_distance ≠ some 200 ∧
    (new_from_bytes sample_payload).map Reading.max_moving_distance ≠ some 10 ∧
    (new_from_bytes sample_payload).map Reading.detection_distance = some 51200 := by
  refine ⟨by decide, by decide, by decide⟩

/-- Claim C2, amended: decoding the sample payload
`00 32 00 4B 1E 00 64 00 C8 00 0A` ++ 24 zero bytes yields
`target_state = 0`, `moving_target_range = 50`,
`moving_target_energy = 75`, `static_target_range = 30`,
`static_target_energy = 100`, `detection_distance = 51200`,
`max_moving_distance = 0`, `max_static_distance = 10`, and both
12-element gate-energy arrays all zero. -/
theorem decode_sample_payload :
    new_from_bytes sample_payload =
      some ⟨0, 50, 75, 30, 100, 51200, 0, 10,
            List.replicate 12 0, List.replicate 12 0⟩ := by
  decide

/-- Claim C9: `Reading.compare` (and hence `_test_presence`) returns
`false` for every reading and every threshold configuration. -/
theorem compare_always_false (r : Reading) (t : Thresholds) :
    Reading.compare r t = false ∧ test_presence t r = false :=
  ⟨rfl, rfl⟩

theorem list_ints_to_bytes_map (l : List Int) (h : ∀ b ∈ l, 0 ≤ b ∧ b < 256) :
    list_ints_to_bytes l = some (l.map Int.toNat) := by
  induction l with
  | nil => rfl
  | cons b t ih =>
    have hb := h b (List.mem_cons_self b t)
    have ht := ih fun x hx => h x (List.mem_cons_of_mem b hx)
    simp [list_ints_to_bytes, int_to_byte, hb, ht]

/-- Claim C10: for a list of integers all in 0..255, the list-of-ints
path of `_tx_sequence` writes exactly the bytes written by the `bytes`
path on the corresponding byte sequence. -/
theorem tx_paths_agree (l : List Int) (h : ∀ b ∈ l, 0 ≤ b ∧ b < 256) :
    tx_sequence_ints l = some (tx_sequence (l.map Int.toNat)) := by
  unfold tx_sequence_ints
  rw [list_ints_to_bytes_map l h]
  rfl

/-- Witness for C10 at the list `[0, 255]`. -/
theorem tx_paths_agree_witness :
    tx_sequence_ints [(0 : Int), 255] = some (tx_sequence ([(0 : Int), 255].map Int.toNat)) :=
  tx_paths_agree [(0 : Int), 255] (by decide)

end LD2410

namespace LD2410

/-- Claim C3, counterexample: the single noise byte `FD` (which contains
no frame) before a valid command frame derails the preamble scanner —
the decoder, which would return payload `01` on the frame alone, instead
consumes the whole stream without finding a frame. -/
theorem noise_prefix_counterexample :
    read_any_message ([0xFD] ++ tx_sequence [0x01]) = .blocked ∧
    read_any_message (tx_sequence [0x01]) =
      .ok (⟨COMMAND_PREAMBLE, [0x01], COMMAND_POSTAMBLE⟩, []) := by
  refine ⟨by decide, by decide⟩

theorem scanPreamble_skip (b : Nat) (rest : List Nat) (hb : b ≠ 0xFD ∧ b ≠ 0xF4) :
    scanPreamble (b :: rest) 0 [] [] = scanPreamble rest 0 [] [] := by
  have h1 : COMMAND_PREAMBLE.getD 0 0 = 0xFD := rfl
  have h2 : REPORTING_PREAMBLE.getD 0 0 = 0xF4 := rfl
  simp only [scanPreamble, h1, h2]
  rw [if_neg]
  push_neg
  exact hb

/-- Claim C3, amended: noise bytes none of which equals the first byte of
either preamble (`FD` or `F4`) preceding any stream leave the decoded
result unchanged; the code's restart-from-scratch scanner misses frames
preceded by noise that partially matches a preamble, so the claim holds
only for such non-engaging noise. -/
theorem noise_prefix_invariant (noise : List Nat)
    (hnoise : ∀ b ∈ noise, b ≠ 0xFD ∧ b ≠ 0xF4) (stream : List Nat) :
    read_any_message (noise ++ stream) = read_any_message stream := by
  induction noise with
  | nil => rfl
  | cons b t ih =>
    have hb := hnoise b (List.mem_cons_self b t)
    have ht := ih fun x hx => hnoise x (List.mem_cons_of_mem b hx)
    unfold read_any_message at ht ⊢
    rw [List.cons_append, scanPreamble_skip b (t ++ stream) hb]
    exact ht

/-- Witness for C3 at the noise `[00, 42]` and the frame for body `07`. -/
theorem noise_prefix_invariant_witness :
    read_any_message ([0x00, 0x42] ++ tx_sequence [0x07]) =
      read_any_message (tx_sequence [0x07]) :=
  noise_prefix_invariant [0x00, 0x42] (by decide) (tx_sequence [0x07])

theorem gatherGates_some (seq : List Nat) :
    ∀ (n base : Nat), base + n ≤ seq.length →
      gatherGates seq base n = some ((seq.drop base).take n) := by
  intro n
  induction n with
  | zero => intro base _; simp [gatherGates]
  | succ n ih =>
    intro base h
    have hb : base < seq.length := by omega
    have h1 : seq[base]? = some seq[base] := List.getElem?_eq_getElem hb
    have h2 := ih (base + 1) (by omega)
    simp only [gatherGates, h1, h2]
    rw [List.drop_eq_getElem_cons hb, List.take_succ_cons]

theorem gatherGates_none (seq : List Nat) :
    ∀ (n base : Nat), 1 ≤ n → seq.length < base + n →
      gatherGates seq base n = none := by
  intro n
  induction n with
  | zero => intro base h; omega
  | succ n ih =>
    intro base _ h
    by_cases hb : base < seq.length
    · have h1 : seq[base]? = some seq[base] := List.getElem?_eq_getElem hb
      have hn : 1 ≤ n := by omega
      have h2 := ih (base + 1) hn (by omega)
      simp [gatherGates, h1, h2]
    · have h1 : seq[base]? = none := by
        rw [List.getElem?_eq_none]
        omega
      simp [gatherGates, h1]

/-- Claim C7, counterexample: `new_from_bytes` performs no length check of
its own, so a 36-byte payload — length not 35 — still decodes to a
`Reading` (the caller `_get_next_reading` is what filters for exactly 35
bytes). -/
theorem reading_length_counterexample :
    (List.replicate 36 0).length ≠ 35 ∧ new_from_bytes (List.replicate 36 0) ≠ none := by
  refine ⟨by decide, by decide⟩

/-- Claim C7, amended: `Reading.new_from_bytes` fails (raises) exactly on
payloads shorter than 35 bytes; every payload of 35 or more bytes
produces a `Reading` (bytes past index 34 are ignored).  The exact-35
gate lives in the caller `_get_next_reading`, which discards any report
payload whose length differs from 35 before decoding. -/
theorem new_from_bytes_length (seq : List Nat) :
    (seq.length < 35 → new_from_bytes seq = none) ∧
    (35 ≤ seq.length → new_from_bytes seq ≠ none) := by
  constructor
  · intro h
    have h23 : gatherGates seq 23 12 = none := gatherGates_none seq 12 23 (by omega) (by omega)
    cases h11 : gatherGates seq 11 12 with
    | none => simp [new_from_bytes, h11]
    | some movs => simp [new_from_bytes, h11, h23]
  · intro h
    have h11 := gatherGates_some seq 12 11 (by omega)
    have h23 := gatherGates_some seq 12 23 (by omega)
    have g0 : seq[0]? = some seq[0] := List.getElem?_eq_getElem (by omega)
    have g3 : seq[3]? = some seq[3] := List.getElem?_eq_getElem (by omega)
    have g6 : seq[6]? = some seq[6] := List.getElem?_eq_getElem (by omega)
    have g9 : seq[9]? = some seq[9] := List.getElem?_eq_getElem (by omega)
    have g10 : seq[10]? = some seq[10] := List.getElem?_eq_getElem (by omega)
    simp [new_from_bytes, h11, h23, g0, g3, g6, g9, g10]

/-- Witness for C7: a 3-byte payload fails to decode, a 35-byte payload
decodes. -/
theorem new_from_bytes_length_witness :
    new_from_bytes (List.replicate 3 0) = none ∧
    new_from_bytes (List.replicate 35 0) ≠ none :=
  ⟨(new_from_bytes_length (List.replicate 3 0)).1 (by decide),
   (new_from_bytes_length (List.replicate 35 0)).2 (by decide)⟩

end LD2410

namespace LD2410

/-- Claim C6: in the fixed-size reads after the preamble, any short read
raises the corresponding framing exception, and whenever a frame is
returned its payload length equals the value of the length field and its
postamble was read in full. -/
theorem read_frame_body_length_integrity (preamble rest : List Nat) :
    (rest.length < 2 → read_frame_body preamble rest = .err .shortLengthRead) ∧
    (2 ≤ rest.length → rest.length - 2 < byte_pair_to_int (rest.take 2) →
        read_frame_body preamble rest = .err .shortPayloadRead) ∧
    (2 + byte_pair_to_int (rest.take 2) ≤ rest.length →
        rest.length < 2 + byte_pair_to_int (rest.take 2) + 4 →
        read_frame_body preamble rest = .err .shortPostambleRead) ∧
    (∀ (msg : Msg) (rest2 : List Nat), read_frame_body preamble rest = .ok (msg, rest2) →
        msg.payload.length = byte_pair_to_int (rest.take 2) ∧ msg.postamble.length = 4) := by
  refine ⟨?_, ?_, ?_, ?_⟩
  · intro h
    have hc : (rest.take 2).length ≠ 2 := by
      simp only [List.length_take]
      omega
    simp only [read_frame_body]
    rw [if_pos hc]
  · intro h2 hshort
    have hc1 : ¬((rest.take 2).length ≠ 2) := by
      simp only [List.length_take]
      omega
    have hc2 : ((rest.drop 2).take (byte_pair_to_int (rest.take 2))).length ≠
        byte_pair_to_int (rest.take 2) := by
      simp only [List.length_take, List.length_drop]
      omega
    simp only [read_frame_body]
    rw [if_neg hc1, if_pos hc2]
  · intro hp hpost
    have hc1 : ¬((rest.take 2).length ≠ 2) := by
      simp only [List.length_take]
      omega
    have hc2 : ¬(((rest.drop 2).take (byte_pair_to_int (rest.take 2))).length ≠
        byte_pair_to_int (rest.take 2)) := by
      simp only [List.length_take, List.length_drop]
      omega
    have hc3 : (((rest.drop 2).drop (byte_pair_to_int (rest.take 2))).take 4).length ≠ 4 := by
      simp only [List.length_take, List.length_drop]
      omega
    simp only [read_frame_body]
    rw [if_neg hc1, if_neg hc2, if_pos hc3]
  · intro msg rest2 hok
    by_cases hc1 : (rest.take 2).length ≠ 2
    · simp only [read_frame_body] at hok
      rw [if_pos hc1] at hok
      exact Outcome.noConfusion hok
    · by_cases hc2 : ((rest.drop 2).take (byte_pair_to_int (rest.take 2))).length ≠
          byte_pair_to_int (rest.take 2)
      · simp only [read_frame_body] at hok
        rw [if_neg hc1, if_pos hc2] at hok
        exact Outcome.noConfusion hok
      · by_cases hc3 : (((rest.drop 2).drop (byte_pair_to_int (rest.take 2))).take 4).length ≠ 4
        · simp only [read_frame_body] at hok
          rw [if_neg hc1, if_neg hc2, if_pos hc3] at hok
          exact Outcome.noConfusion hok
        · simp only [read_frame_body] at hok
          rw [if_neg hc1, if_neg hc2, if_neg hc3] at hok
          rw [Outcome.ok.injEq, Prod.mk.injEq] at hok
          obtain ⟨hmsg, -⟩ := hok
          rw [← hmsg]
          exact ⟨not_ne_iff.mp hc2, not_ne_iff.mp hc3⟩

/-- Witness for C6: a 1-byte remainder fails the length read, a
length-field of 5 with no payload bytes fails the payload read, and a
complete payload with a 2-byte postamble fails the postamble read. -/
theorem read_frame_body_length_integrity_witness :
    read_frame_body COMMAND_PREAMBLE [0x07] = .err .shortLengthRead ∧
    read_frame_body COMMAND_PREAMBLE [0x05, 0x00] = .err .shortPayloadRead ∧
    read_frame_body COMMAND_PREAMBLE [0x01, 0x00, 0xAA, 0x04, 0x03] = .err .shortPostambleRead :=
  ⟨(read_frame_body_length_integrity COMMAND_PREAMBLE [0x07]).1 (by decide),
   (read_frame_body_length_integrity COMMAND_PREAMBLE [0x05, 0x00]).2.1 (by decide) (by decide),
   (read_frame_body_length_integrity COMMAND_PREAMBLE
      [0x01, 0x00, 0xAA, 0x04, 0x03]).2.2.1 (by decide) (by decide)⟩

theorem rx_loop_step (expect : Bool) (r fuel : Nat) (s s1 : List Nat)
    (h : skipWrong expect s = some s1) :
    rx_loop expect r (fuel + 1) s = rx_loop expect r fuel s1 := by
  cases hr : read_any_message s with
  | ok v =>
    obtain ⟨msg, rest⟩ := v
    simp only [skipWrong, hr] at h
    by_cases hk : msg.preamble = expected_preamble expect ∧
        msg.postamble = expected_postamble expect
    · rw [if_pos hk] at h
      exact Option.noConfusion h
    · rw [if_neg hk] at h
      injection h with h'
      subst h'
      simp only [rx_loop, hr]
      rw [if_neg hk]
  | err e =>
    simp only [skipWrong, hr] at h
    exact Option.noConfusion h
  | blocked =>
    simp only [skipWrong, hr] at h
    exact Option.noConfusion h

theorem rx_loop_hit (expect : Bool) (r fuel : Nat) (s rest : List Nat) (msg : Msg)
    (hr : read_any_message s = .ok (msg, rest))
    (hpre : msg.preamble = expected_preamble expect)
    (hpost : msg.postamble = expected_postamble expect) :
    rx_loop expect r (fuel + 1) s = .ok (msg.payload, rest) := by
  simp only [rx_loop, hr]
  rw [if_pos ⟨hpre, hpost⟩]

theorem rx_loop_matchN (expect : Bool) (r : Nat) :
    ∀ (j fuel : Nat) (s sj : List Nat) (msg : Msg) (rest : List Nat),
      j < fuel →
      skipWrongN expect j s = some sj →
      read_any_message sj = .ok (msg, rest) →
      msg.preamble = expected_preamble expect →
      msg.postamble = expected_postamble expect →
      rx_loop expect r fuel s = .ok (msg.payload, rest) := by
  intro j
  induction j with
  | zero =>
    intro fuel s sj msg rest hj hskip hr hpre hpost
    obtain ⟨fuel, rfl⟩ : ∃ f, fuel = f + 1 := ⟨fuel - 1, by omega⟩
    injection hskip with h
    subst h
    exact rx_loop_hit expect r fuel s rest msg hr hpre hpost
  | succ j ih =>
    intro fuel s sj msg rest hj hskip hr hpre hpost
    obtain ⟨fuel, rfl⟩ : ∃ f, fuel = f + 1 := ⟨fuel - 1, by omega⟩
    simp only [skipWrongN] at hskip
    cases hw : skipWrong expect s with
    | none =>
      rw [hw] at hskip
      exact Option.noConfusion hskip
    | some s1 =>
      rw [hw] at hskip
      rw [rx_loop_step expect r fuel s s1 hw]
      exact ih fuel s1 sj msg rest (by omega) (by simpa using hskip) hr hpre hpost

theorem rx_loop_exhaust (expect : Bool) (r : Nat) :
    ∀ (fuel : Nat) (s sn : List Nat), skipWrongN expect fuel s = some sn →
      rx_loop expect r fuel s = .err (.rxTimeout expect r) := by
  intro fuel
  induction fuel with
  | zero => intro s sn _; rfl
  | succ fuel ih =>
    intro s sn hskip
    simp only [skipWrongN] at hskip
    cases hw : skipWrong expect s with
    | none =>
      rw [hw] at hskip
      exact Option.noConfusion hskip
    | some s1 =>
      rw [hw] at hskip
      rw [rx_loop_step expect r fuel s s1 hw]
      exact ih s1 sn (by simpa using hskip)

/-- Claim C5: for every expected kind and retry count, `_rx_sequence`
returns the payload of the first frame whose preamble and postamble match
the expected kind, silently consuming every preceding wrong-kind frame;
if all `n` decoded frames are of the wrong kind it raises the timeout
exception naming the expected kind and the retry count. -/
theorem rx_sequence_first_match (report_expected : Bool) (n : Nat) (s0 : List Nat) :
    (∀ (j : Nat) (sj : List Nat) (msg : Msg) (rest : List Nat),
        j < n →
        skipWrongN report_expected j s0 = some sj →
        read_any_message sj = .ok (msg, rest) →
        msg.preamble = expected_preamble report_expected →
        msg.postamble = expected_postamble report_expected →
        rx_sequence report_expected n s0 = .ok (msg.payload, rest)) ∧
    (∀ sn : List Nat, skipWrongN report_expected n s0 = some sn →
        rx_sequence report_expected n s0 = .err (.rxTimeout report_expected n)) := by
  constructor
  · intro j sj msg rest hj hskip hr hpre hpost
    exact rx_loop_matchN report_expected n j n s0 sj msg rest hj hskip hr hpre hpost
  · intro sn hskip
    exact rx_loop_exhaust report_expected n n s0 sn hskip

/-- Witness for C5: awaiting a command ack with 2 retries, a report frame
(payload `01`) followed by a command frame (payload `02`) yields `02` —
the report frame is consumed. -/
theorem rx_sequence_first_match_witness :
    rx_sequence false 2 report_then_command = .ok ([0x02], []) :=
  (rx_sequence_first_match false 2 report_then_command).1 1 (tx_sequence [0x02])
    ⟨COMMAND_PREAMBLE, [0x02], COMMAND_POSTAMBLE⟩ []
    (by decide) (by decide) (by decide) rfl rfl

/-- Claim C4: if the first enter-configuration-mode step of the handshake
receives any acknowledgement payload other than
`FF 01 00 00 01 00 40 00`, the run aborts with the
acknowledgement-mismatch exception of that step, and the bytes written
are exactly the enter-config command frame — no reset, firmware,
engineering-mode or leave-config command is ever sent, so the reporting
state is never reached. -/
theorem handshake_fatality (input resp rest : List Nat)
    (hrx : rx_sequence false 10 input = .ok (resp, rest))
    (hne : resp ≠ [0xFF, 0x01, 0x00, 0x00, 0x01, 0x00, 0x40, 0x00]) :
    run_handshake ⟨input, []⟩ =
      .fail (.ackMismatch .enterConfig) ⟨rest, tx_sequence [0xFF, 0x00, 0x01, 0x00]⟩ := by
  have h1 : enter_configuration_mode ⟨input, []⟩ =
      .fail (.ackMismatch .enterConfig) ⟨rest, tx_sequence [0xFF, 0x00, 0x01, 0x00]⟩ := by
    simp only [enter_configuration_mode, List.nil_append, hrx]
    rw [if_neg hne]
  unfold run_handshake
  rw [h1]
  rfl

/-- Witness for C4: the sensor answers the enter-config command with a
command-kind frame whose payload is the single byte `00`. -/
theorem handshake_fatality_witness :
    run_handshake ⟨tx_sequence [0x00], []⟩ =
      .fail (.ackMismatch .enterConfig) ⟨[], tx_sequence [0xFF, 0x00, 0x01, 0x00]⟩ :=
  handshake_fatality (tx_sequence [0x00]) [0x00] [] (by decide) (by decide)

end LD2410

namespace LD2410

theorem drop_append_le {α : Type} (l₁ l₂ : List α) :
    ∀ n : Nat, n ≤ l₁.length → (l₁ ++ l₂).drop n = l₁.drop n ++ l₂ := by
  induction l₁ with
  | nil =>
    intro n h
    have : n = 0 := by simpa using h
    subst this
    simp
  | cons a t ih =>
    intro n h
    cases n with
    | zero => simp
    | succ n =>
      simp only [List.cons_append, List.drop_succ_cons]
      exact ih n (by simpa using h)

theorem pushAll_items {α : Type} (N : Nat) :
    ∀ (rs : List α) (d : Deque α), d.maxlen = N → d.items.length ≤ N →
      (d.pushAll rs).items = (d.items ++ rs).drop (d.items.length + rs.length - N) := by
  intro rs
  induction rs with
  | nil =>
    intro d hm hl
    have h0 : d.items.length + ([] : List α).length - N = 0 := by
      simp only [List.length_nil]
      omega
    simp only [Deque.pushAll, List.foldl_nil, List.append_nil, h0, List.drop_zero]
  | cons x rs ih =>
    intro d hm hl
    have hpush : (d.push x).items =
        (d.items ++ [x]).drop (d.items.length + 1 - N) := by
      simp [Deque.push, hm]
    have hm' : (d.push x).maxlen = N := by
      simp [Deque.push, hm]
    have hl' : (d.push x).items.length ≤ N := by
      rw [hpush]
      simp only [List.length_drop, List.length_append, List.length_cons, List.length_nil]
      omega
    have hfold : d.pushAll (x :: rs) = (d.push x).pushAll rs := rfl
    rw [hfold, ih (d.push x) hm' hl', hpush]
    rw [List.length_drop, List.length_append]
    rw [← drop_append_le (d.items ++ [x]) rs _
        (by simp only [List.length_append, List.length_cons, List.length_nil]; omega)]
    rw [List.drop_drop]
    rw [List.append_assoc, List.singleton_append]
    congr 1
    simp only [List.length_append, List.length_cons, List.length_nil]
    omega

/-- Claim C8: pushing `N + 1` readings into an empty history buffer of
capacity `N ≥ 1` leaves exactly `N` entries, the first (oldest) reading
evicted (the buffer holds the pushed list minus its head), and
`get_latest` returns the `(N+1)`-th reading pushed. -/
theorem buffer_eviction (N : Nat) (rs : List Reading) (hN : 1 ≤ N)
    (hlen : rs.length = N + 1) :
    ((Deque.empty Reading N).pushAll rs).items = rs.drop 1 ∧
    ((Deque.empty Reading N).pushAll rs).items.length = N ∧
    ((Deque.empty Reading N).pushAll rs).get_latest = rs[N]? := by
  have hitems : ((Deque.empty Reading N).pushAll rs).items = rs.drop 1 := by
    have h := pushAll_items N rs (Deque.empty Reading N) rfl (by simp [Deque.empty])
    rw [h]
    simp only [Deque.empty, List.nil_append, List.length_nil, Nat.zero_add]
    rw [hlen]
    congr 1
    omega
  refine ⟨hitems, ?_, ?_⟩
  · rw [hitems, List.length_drop, hlen]
    omega
  · unfold Deque.get_latest
    rw [hitems, List.getLast?_eq_getElem?, List.length_drop, hlen, List.getElem?_drop]
    congr 1
    omega

/-- Witness for C8 at capacity 1 with two pushed readings. -/
theorem buffer_eviction_witness :
    ((Deque.empty Reading 1).pushAll
        [⟨0, 0, 0, 0, 0, 0, 0, 0, [], []⟩, ⟨1, 1, 1, 1, 1, 1, 1, 1, [], []⟩]).items =
      ([⟨0, 0, 0, 0, 0, 0, 0, 0, [], []⟩, ⟨1, 1, 1, 1, 1, 1, 1, 1, [], []⟩] : List Reading).drop 1 ∧
    ((Deque.empty Reading 1).pushAll
        [⟨0, 0, 0, 0, 0, 0, 0, 0, [], []⟩, ⟨1, 1, 1, 1, 1, 1, 1, 1, [], []⟩]).items.length = 1 ∧
    ((Deque.empty Reading 1).pushAll
        [⟨0, 0, 0, 0, 0, 0, 0, 0, [], []⟩, ⟨1, 1, 1, 1, 1, 1, 1, 1, [], []⟩]).get_latest =
      ([⟨0, 0, 0, 0, 0, 0, 0, 0, [], []⟩, ⟨1, 1, 1, 1, 1, 1, 1, 1, [], []⟩] : List Reading)[1]? :=
  buffer_eviction 1 [⟨0, 0, 0, 0, 0, 0, 0, 0, [], []⟩, ⟨1, 1, 1, 1, 1, 1, 1, 1, [], []⟩]
    (by decide) rfl

end LD2410
